import Mathlib

/-!
Verification of the RTSP live-streaming application core.

Shallow embedding of the core client logic of the repository:

* the Overlay Sync Engine (debounced persistence of overlay drag/resize
  gestures) from `apps/web/src/features/overlays/components/overlay-box.tsx`;
* the Playback Recovery Controller (the `VideoPlayer` component and its
  hls.js event handlers) from
  `apps/web/src/features/rtsp/components/rtsp-input.tsx`;
* the source-URL validation and submit flow of the `RtspInput` component,
  same file;
* the error-message mapping from `apps/web/src/lib/errors.ts`;
* the server-side Stream Lifecycle Manager, whose sources are not part of
  the `src/` tree and which is therefore modelled from the design
  document.

Timers are modelled by explicit event lists carrying millisecond
timestamps; React state is modelled by explicit state records threaded
through step functions.
-/

/-! ## Overlay Sync Engine (overlay-box.tsx)

`debouncedUpdate` keeps one cancellable timeout handle
(`updateTimeoutRef`).  Each gesture-stop update cancels a still-pending
timeout (if any) and schedules `onUpdate` with its own payload
`DEBOUNCE_DELAY` milliseconds later; the timeout callback fires the
persist and clears the handle.  We model a run of the component as a
list of `(time, payload)` updates in increasing time order, together
with an optional unmount time; the semantics returns the list of
`(fireTime, payload)` persist calls actually issued.

Modelling choice for ties: a timeout scheduled for time `ft` has fired
by the time an update at `t ≥ ft` is processed; the unmount cleanup at
time `m` cancels a pending timeout scheduled at `ft ≥ m`.  The claims
under verification only concern strict-inequality gaps, where no tie
arises. -/

/-- Debounce delay in milliseconds (overlay-box.tsx, `DEBOUNCE_DELAY`). -/
def DEBOUNCE_DELAY : Nat := 500

/-- One `debouncedUpdate` call at time `u.1` with payload `u.2`, given the
currently pending timeout (fire time and payload).  Returns the persists
that fired before this call, and the new pending timeout. -/
def debounceStep {α : Type} (pending : Option (Nat × α)) (u : Nat × α) :
    List (Nat × α) × Option (Nat × α) :=
  match pending with
  | none => ([], some (u.1 + DEBOUNCE_DELAY, u.2))
  | some (ft, p) =>
    if ft ≤ u.1 then ([(ft, p)], some (u.1 + DEBOUNCE_DELAY, u.2))
    else ([], some (u.1 + DEBOUNCE_DELAY, u.2))

/-- Process a list of `debouncedUpdate` calls, collecting fired persists
and the final pending timeout. -/
def debounceEvents {α : Type} (pending : Option (Nat × α)) :
    List (Nat × α) → List (Nat × α) × Option (Nat × α)
  | [] => ([], pending)
  | u :: rest =>
    let s := debounceStep pending u
    let r := debounceEvents s.2 rest
    (s.1 ++ r.1, r.2)

/-- End of run: with no unmount the pending timeout eventually fires; the
unmount cleanup (`clearTimeout` in the `useEffect` destructor) cancels a
timeout still pending at unmount time `m`. -/
def flushOrCancel {α : Type} (pending : Option (Nat × α)) (unmount : Option Nat) :
    List (Nat × α) :=
  match pending, unmount with
  | none, _ => []
  | some fp, none => [fp]
  | some fp, some m => if fp.1 < m then [fp] else []

/-- All persist calls issued by a component run: a list of gesture-stop
updates (increasing times) and an optional unmount time. -/
def debouncedRun {α : Type} (updates : List (Nat × α)) (unmount : Option Nat) :
    List (Nat × α) :=
  let r := debounceEvents none updates
  r.1 ++ flushOrCancel r.2 unmount

/-- Burst predicate `burstAfter t us`: every update in `us` follows the previous one (the
first follows time `t`) by strictly less than `DEBOUNCE_DELAY`. -/
def burstAfter {α : Type} (t : Nat) : List (Nat × α) → Prop
  | [] => True
  | u :: rest => t < u.1 ∧ u.1 < t + DEBOUNCE_DELAY ∧ burstAfter u.1 rest

/-- Last update of a burst, given the head update. -/
def lastUpd {α : Type} (d : Nat × α) : List (Nat × α) → Nat × α
  | [] => d
  | u :: rest => lastUpd u rest

/-- The persist scheduled by an update: same payload, `DEBOUNCE_DELAY`
later. -/
def fromUpd {α : Type} (u : Nat × α) : Nat × α := (u.1 + DEBOUNCE_DELAY, u.2)

theorem debounceEvents_burst {α : Type} (us : List (Nat × α)) :
    ∀ (t : Nat) (p : α), burstAfter t us →
      debounceEvents (some (t + DEBOUNCE_DELAY, p)) us =
        ([], some (fromUpd (lastUpd (t, p) us))) := by
  induction us with
  | nil => intro t p _; rfl
  | cons u rest ih =>
    intro t p hb
    obtain ⟨_, hlt, hrest⟩ := hb
    have hstep : debounceStep (some (t + DEBOUNCE_DELAY, p)) u =
        ([], some (u.1 + DEBOUNCE_DELAY, u.2)) := by
      simp [debounceStep]
      omega
    have := ih u.1 u.2 hrest
    simp [debounceEvents, hstep, lastUpd]
    simpa using this

/-- C1.  Overlay Sync Engine debounce: in a burst of gesture-stop updates
whose consecutive gaps are all strictly below 500 ms, exactly one persist
(`onUpdate`) call is issued; it carries the payload of the last update of
the burst and fires `DEBOUNCE_DELAY` (500 ms) after that last update.
Every earlier scheduled persist is cancelled (the run emits nothing for
it). -/
theorem debounce_burst_single_persist {α : Type} (u0 : Nat × α)
    (us : List (Nat × α)) (hb : burstAfter u0.1 us) :
    debouncedRun (u0 :: us) none = [fromUpd (lastUpd u0 us)] := by
  have h := debounceEvents_burst us u0.1 u0.2 hb
  simp [debouncedRun, debounceEvents, debounceStep] at h ⊢
  simp [h, flushOrCancel]

/-- Concrete instance of `debounce_burst_single_persist`, the scenario of
the design document: updates at t = 0, 100, 200 ms produce exactly one
persist, at t = 700 ms, carrying the t = 200 ms payload. -/
theorem debounce_burst_single_persist_witness :
    debouncedRun [((0 : Nat), (1 : Nat)), (100, 2), (200, 3)] none = [(700, 3)] := by
  have h := debounce_burst_single_persist (0, 1) [(100, 2), (200, 3)]
    (by simp [burstAfter, DEBOUNCE_DELAY])
  simpa [lastUpd, fromUpd, DEBOUNCE_DELAY] using h

theorem debounceEvents_fired_sub {α : Type} (us : List (Nat × α)) :
    ∀ (pending : Option (Nat × α)) (q : Nat × α),
      q ∈ (debounceEvents pending us).1 →
        pending = some q ∨ ∃ u ∈ us, q = fromUpd u := by
  induction us with
  | nil => intro pending q hq; simp [debounceEvents] at hq
  | cons u rest ih =>
    intro pending q hq
    simp only [debounceEvents, List.mem_append] at hq
    rcases hq with hq | hq
    · -- fired at this step: it was the pending timeout
      match pending with
      | none => simp [debounceStep] at hq
      | some fp =>
        simp only [debounceStep] at hq
        by_cases hle : fp.1 ≤ u.1
        · simp [hle] at hq
          exact Or.inl (by simp [hq])
        · simp [hle] at hq
    · -- fired later: either the timeout scheduled here, or a later one
      have := ih (debounceStep pending u).2 q hq
      rcases this with hp | ⟨v, hv, hq'⟩
      · refine Or.inr ⟨u, by simp, ?_⟩
        match pending with
        | none => simp [debounceStep] at hp; simp [fromUpd, hp]
        | some fp =>
          simp only [debounceStep] at hp
          by_cases hle : fp.1 ≤ u.1 <;> simp [hle] at hp <;> simp [fromUpd, hp]
      · exact Or.inr ⟨v, by simp [hv], hq'⟩

theorem debounceEvents_pending_sub {α : Type} (us : List (Nat × α)) :
    ∀ (pending : Option (Nat × α)) (q : Nat × α),
      (debounceEvents pending us).2 = some q →
        pending = some q ∨ ∃ u ∈ us, q = fromUpd u := by
  induction us with
  | nil => intro pending q hq; simp [debounceEvents] at hq; simp [hq]
  | cons u rest ih =>
    intro pending q hq
    simp only [debounceEvents] at hq
    have := ih (debounceStep pending u).2 q hq
    rcases this with hp | ⟨v, hv, hq'⟩
    · refine Or.inr ⟨u, by simp, ?_⟩
      match pending with
      | none => simp [debounceStep] at hp; simp [fromUpd, hp]
      | some fp =>
        simp only [debounceStep] at hp
        by_cases hle : fp.1 ≤ u.1 <;> simp [hle] at hp <;> simp [fromUpd, hp]
    · exact Or.inr ⟨v, by simp [hv], hq'⟩

theorem debounceEvents_fired_before {α : Type} (us : List (Nat × α)) :
    ∀ (pending : Option (Nat × α)) (q : Nat × α),
      q ∈ (debounceEvents pending us).1 → ∃ u ∈ us, q.1 ≤ u.1 := by
  induction us with
  | nil => intro pending q hq; simp [debounceEvents] at hq
  | cons u rest ih =>
    intro pending q hq
    simp only [debounceEvents, List.mem_append] at hq
    rcases hq with hq | hq
    · match pending with
      | none => simp [debounceStep] at hq
      | some fp =>
        simp only [debounceStep] at hq
        by_cases hle : fp.1 ≤ u.1
        · simp [hle] at hq
          exact ⟨u, by simp, by simp [hq, hle]⟩
        · simp [hle] at hq
    · obtain ⟨v, hv, hle⟩ := ih (debounceStep pending u).2 q hq
      exact ⟨v, by simp [hv], hle⟩

/-- C6.  Unmount cancellation: in a run that unmounts at time `m` (all
gesture updates happening before `m`), every persist that is issued fires
strictly before `m` — a persist still pending at unmount is cancelled by
the `useEffect` cleanup and never fires — and every issued persist stems
from 500 ms of quiescence after some update (there is no flush-now path:
each persist equals some update's payload fired `DEBOUNCE_DELAY` after
that update). -/
theorem unmount_cancels_pending {α : Type} (updates : List (Nat × α))
    (m : Nat) (hm : ∀ u ∈ updates, u.1 < m) :
    (∀ q ∈ debouncedRun updates (some m), q.1 < m) ∧
    (∀ q ∈ debouncedRun updates (some m), ∃ u ∈ updates, q = fromUpd u) := by
  constructor
  · intro q hq
    simp only [debouncedRun, List.mem_append] at hq
    rcases hq with hq | hq
    · obtain ⟨u, hu, hle⟩ := debounceEvents_fired_before updates none q hq
      exact lt_of_le_of_lt hle (hm u hu)
    · match hpend : (debounceEvents none updates).2 with
      | none => simp [flushOrCancel, hpend] at hq
      | some fp =>
        simp only [flushOrCancel, hpend] at hq
        by_cases hlt : fp.1 < m
        · simp [hlt] at hq
          simpa [hq] using hlt
        · simp [hlt] at hq
  · intro q hq
    simp only [debouncedRun, List.mem_append] at hq
    rcases hq with hq | hq
    · rcases debounceEvents_fired_sub updates none q hq with h | h
      · exact absurd h (by simp)
      · exact h
    · match hpend : (debounceEvents none updates).2 with
      | none => simp [flushOrCancel, hpend] at hq
      | some fp =>
        simp only [flushOrCancel, hpend] at hq
        by_cases hlt : fp.1 < m
        · simp [hlt] at hq
          rcases debounceEvents_pending_sub updates none fp hpend with h | h
          · exact absurd h (by simp)
          · simpa [hq] using h
        · simp [hlt] at hq

/-- Concrete instance of `unmount_cancels_pending`: updates at t = 0 and
t = 600 with unmount at t = 650 issue the t = 500 persist (payload of the
t = 0 update) and cancel the one pending from the t = 600 update. -/
theorem unmount_cancels_pending_witness :
    ((500 : Nat), (10 : Nat)).1 < 650 ∧
    ∃ u ∈ [((0 : Nat), (10 : Nat)), (600, 20)], ((500 : Nat), (10 : Nat)) = fromUpd u := by
  have h := unmount_cancels_pending [((0 : Nat), (10 : Nat)), (600, 20)] 650
    (by decide)
  exact ⟨h.1 (500, 10) (by decide), h.2 (500, 10) (by decide)⟩

/-! ## Playback Recovery Controller (rtsp-input.tsx, `VideoPlayer`)

The React state of the player and the `updateState` merge
(`setState(prev => ({...prev, ...updates}))` with a `Partial<PlayerState>`
argument; absent keys are modelled as `none`). -/

structure PlayerState where
  isPlaying : Bool
  isMuted : Bool
  isLoading : Bool
  hasError : Bool
deriving DecidableEq

/-- Partial player state, `Partial<PlayerState>`: each field either absent or set. -/
structure PartialPlayerState where
  isPlaying : Option Bool
  isMuted : Option Bool
  isLoading : Option Bool
  hasError : Option Bool
deriving DecidableEq

/-- Initial player state, `INITIAL_PLAYER_STATE` of rtsp-input.tsx. -/
def INITIAL_PLAYER_STATE : PlayerState :=
  ⟨false, true, false, false⟩

/-- The `updateState` callback of `VideoPlayer`: object-spread merge of a partial
update into the previous state. -/
def updateState (prev : PlayerState) (updates : PartialPlayerState) : PlayerState :=
  { isPlaying := updates.isPlaying.getD prev.isPlaying
    isMuted := updates.isMuted.getD prev.isMuted
    isLoading := updates.isLoading.getD prev.isLoading
    hasError := updates.hasError.getD prev.hasError }

/-- hls.js error categories as inspected by the handler (`data.type`):
`NETWORK_ERROR`, `MEDIA_ERROR`, and everything else. -/
inductive HlsErrorType
  | networkError
  | mediaError
  | otherError
deriving DecidableEq

/-- The part of the hls.js `ERROR` event payload the handler reads. -/
structure HlsErrorData where
  fatal : Bool
  errType : HlsErrorType
  details : String
deriving DecidableEq

/-- What the `ERROR` handler does to the pipeline instance. -/
inductive HlsAction
  | noAction
  | startLoad
  | recoverMediaError
  | destroy
deriving DecidableEq

structure HlsErrorResult where
  state : PlayerState
  action : HlsAction
  onErrorMsg : Option String
deriving DecidableEq

/-- The `Hls.Events.ERROR` handler of `initHls`: events whose `fatal`
flag is false are ignored; otherwise `isLoading` is cleared and the
event type is dispatched — network errors restart the load loop, media
errors invoke local decode recovery, anything else sets `hasError`,
reports through `onError` and destroys the pipeline. -/
def onHlsError (s : PlayerState) (d : HlsErrorData) : HlsErrorResult :=
  if d.fatal = false then ⟨s, .noAction, none⟩
  else
    let s1 := updateState s ⟨none, none, some false, none⟩
    match d.errType with
    | .networkError => ⟨s1, .startLoad, none⟩
    | .mediaError => ⟨s1, .recoverMediaError, none⟩
    | .otherError =>
      ⟨updateState s1 ⟨none, none, none, some true⟩, .destroy,
        some (String.append "HLS Error: " d.details)⟩

/-- The `Hls.Events.MANIFEST_PARSED` handler: clears `isLoading`, sets
`isPlaying`, then attempts `video.play()`; when the play promise rejects
(autoplay policy) the catch handler resets `isPlaying` to false. -/
def onManifestParsed (s : PlayerState) (playRejected : Bool) : PlayerState :=
  let s1 := updateState s ⟨some true, none, some false, none⟩
  if playRejected then updateState s1 ⟨some false, none, none, none⟩ else s1

/-- Suffix test, `String.endsWith` modelled on character lists (used for the
`src.endsWith('.m3u8')` guard of `initHls`). -/
def strEndsWith (s sfx : String) : Bool :=
  List.isPrefixOf sfx.data.reverse s.data.reverse

/-! ### Pipeline instance tracking

`VideoPlayer` keeps the hls.js instance in `hlsRef`; `destroyHls`
destroys and nulls it, `initHls` tears the old instance down before
creating a new one, and the fatal branch of the error handler destroys
the instance (without nulling `hlsRef`).  `PMState` tracks the ref, the
multiset of currently alive (not yet destroyed) instances by id, the
React player state, and a counter of `destroy()` invocations. -/

structure PMState where
  refId : Option Nat
  alive : List Nat
  nextId : Nat
  player : PlayerState
  destroyCalls : Nat
deriving DecidableEq

/-- The `destroyHls` callback of `VideoPlayer`: destroy the ref'd instance (if any)
and null the ref. -/
def destroyHls (s : PMState) : PMState :=
  match s.refId with
  | none => s
  | some i =>
    { s with
      refId := none
      alive := s.alive.erase i
      destroyCalls := s.destroyCalls + 1 }

/-- The `initHls` callback of `VideoPlayer`: no-op without a video element or source;
otherwise destroy any previous instance, set `isLoading` / clear
`hasError`, and — when hls.js is supported and the source is an `.m3u8`
manifest — create a fresh pipeline instance and store it in the ref
(otherwise fall back to native playback, which creates no instance). -/
def initHls (s : PMState) (hasVideo : Bool) (src : Option String)
    (hlsSupported : Bool) : PMState :=
  match src with
  | none => s
  | some url =>
    if hasVideo = false then s
    else
      let s1 := destroyHls s
      let s2 := { s1 with
        player := updateState s1.player ⟨none, none, some true, some false⟩ }
      if hlsSupported && strEndsWith url ".m3u8" then
        { s2 with
          refId := some s2.nextId
          alive := s2.nextId :: s2.alive
          nextId := s2.nextId + 1 }
      else s2

/-- Events of one `VideoPlayer` run: effect (re-)runs of `initHls`,
the effect cleanup (`destroyHls`), and callbacks from the live pipeline
instance. -/
inductive PEvent
  | init (hasVideo : Bool) (src : Option String) (hlsSupported : Bool)
  | cleanup
  | hlsErr (d : HlsErrorData)
  | manifest (playRejected : Bool)

/-- Delivery of one `ERROR` event to the handler.  Callbacks are events
of the instance held in the ref; a destroyed instance emits no events,
so the step applies only while that instance is alive. -/
def pstepErr (s : PMState) (d : HlsErrorData) : PMState :=
  match s.refId with
  | none => s
  | some i =>
    if s.alive.contains i then
      let r := onHlsError s.player d
      if r.action = .destroy then
        { s with
          player := r.state
          alive := s.alive.erase i
          destroyCalls := s.destroyCalls + 1 }
      else { s with player := r.state }
    else s

/-- Delivery of the `MANIFEST_PARSED` event (with the outcome of the
`video.play()` attempt). -/
def pstepManifest (s : PMState) (rejected : Bool) : PMState :=
  match s.refId with
  | none => s
  | some i =>
    if s.alive.contains i then
      { s with player := onManifestParsed s.player rejected }
    else s

/-- One step of the player machine. -/
def pstep (s : PMState) : PEvent → PMState
  | .init hasVideo src supported => initHls s hasVideo src supported
  | .cleanup => destroyHls s
  | .hlsErr d => pstepErr s d
  | .manifest rejected => pstepManifest s rejected

/-- Mount state of `VideoPlayer`: no instance, initial React state. -/
def initialPM : PMState :=
  ⟨none, [], 0, INITIAL_PLAYER_STATE, 0⟩

/-- A whole `VideoPlayer` run. -/
def runP (events : List PEvent) : PMState :=
  events.foldl pstep initialPM

/-- Reachable-state invariant: either no instance is alive, or exactly
the one held in the ref. -/
def PMInv (s : PMState) : Prop :=
  s.alive = [] ∨ ∃ i, s.alive = [i] ∧ s.refId = some i

theorem pmInv_destroyHls {s : PMState} (h : PMInv s) :
    (destroyHls s).alive = [] := by
  rcases h with h | ⟨i, ha, hr⟩
  · unfold destroyHls
    match s.refId with
    | none => simpa using h
    | some j => simp [h]
  · simp [destroyHls, hr, ha]

theorem pmInv_initHls {s : PMState} (h : PMInv s) (hasVideo : Bool)
    (src : Option String) (supported : Bool) :
    PMInv (initHls s hasVideo src supported) := by
  match src with
  | none => simpa [initHls] using h
  | some url =>
    by_cases hv : hasVideo = false
    · simpa [initHls, hv] using h
    · have hd := pmInv_destroyHls h
      simp only [initHls, hv]
      by_cases hs : (supported && strEndsWith url ".m3u8") = true
      · simp only [if_pos hs, hs]
        exact Or.inr ⟨(destroyHls s).nextId, by simp [hd], rfl⟩
      · simp only [if_neg hs]
        exact Or.inl hd

theorem pmInv_pstepErr {s : PMState} (h : PMInv s) (d : HlsErrorData) :
    PMInv (pstepErr s d) := by
  unfold pstepErr
  match hr : s.refId with
  | none => exact h
  | some i =>
    by_cases hc : s.alive.contains i = true
    · rcases h with ha | ⟨j, ha, hrj⟩
      · rw [ha] at hc; simp at hc
      · have hij : i = j := by
          rw [hr] at hrj
          exact Option.some.inj hrj
        subst hij
        by_cases hact : (onHlsError s.player d).action = .destroy
        · simp only [hc, if_pos hact, if_true]
          exact Or.inl (by simp [ha])
        · simp only [hc, if_neg hact, if_true]
          exact Or.inr ⟨i, ha, rfl⟩
    · simp only [hc, if_false]
      exact h

theorem pmInv_pstepManifest {s : PMState} (h : PMInv s) (rejected : Bool) :
    PMInv (pstepManifest s rejected) := by
  unfold pstepManifest
  match hr : s.refId with
  | none => exact h
  | some i =>
    by_cases hc : s.alive.contains i = true
    · simp only [hc, if_true]
      rcases h with ha | ⟨j, ha, hrj⟩
      · exact Or.inl ha
      · have hij : i = j := by
          rw [hr] at hrj
          exact Option.some.inj hrj
        subst hij
        exact Or.inr ⟨i, ha, rfl⟩
    · simp only [hc, if_false]
      exact h

theorem pmInv_step {s : PMState} (h : PMInv s) (e : PEvent) :
    PMInv (pstep s e) := by
  cases e with
  | init hasVideo src supported => exact pmInv_initHls h hasVideo src supported
  | cleanup => exact Or.inl (pmInv_destroyHls h)
  | hlsErr d => exact pmInv_pstepErr h d
  | manifest rejected => exact pmInv_pstepManifest h rejected

theorem pmInv_run_from {s : PMState} (h : PMInv s) (events : List PEvent) :
    PMInv (events.foldl pstep s) := by
  induction events generalizing s with
  | nil => simpa using h
  | cons e rest ih => exact ih (pmInv_step h e)

theorem pmInv_runP (events : List PEvent) : PMInv (runP events) :=
  pmInv_run_from (Or.inl rfl) events

/-- C4.  Attach idempotence: in every run of the player, at most one
hls.js pipeline instance is alive at any instant, and `destroyHls` —
which `initHls` runs before creating a new instance — leaves no alive
instance, so re-attachment fully destroys the previous session first. -/
theorem attach_single_pipeline (events : List PEvent) :
    (runP events).alive.length ≤ 1 ∧
    (destroyHls (runP events)).alive = [] := by
  have h := pmInv_runP events
  constructor
  · rcases h with ha | ⟨i, ha, _⟩ <;> simp [ha]
  · exact pmInv_destroyHls h

/-- Whether an event re-runs `initHls` (the only step that can create a
pipeline instance). -/
def isInitEvent : PEvent → Bool
  | .init _ _ _ => true
  | _ => false

theorem alive_stays_empty {s : PMState} (h : s.alive = [])
    (rest : List PEvent) (hni : ∀ e ∈ rest, isInitEvent e = false) :
    (rest.foldl pstep s).alive = [] := by
  induction rest generalizing s with
  | nil => simpa using h
  | cons e rest ih =>
    have he : isInitEvent e = false := hni e (by simp)
    have hstep : (pstep s e).alive = [] := by
      cases e with
      | init hv src sup => simp [isInitEvent] at he
      | cleanup =>
        unfold pstep destroyHls
        match s.refId with
        | none => exact h
        | some i => simp [h]
      | hlsErr d =>
        unfold pstep pstepErr
        match s.refId with
        | none => exact h
        | some i => simp [h]
      | manifest r =>
        unfold pstep pstepManifest
        match s.refId with
        | none => exact h
        | some i => simp [h]
    exact ih hstep (fun e' he' => hni e' (by simp [he']))

/-- C3.  Fatal fault: when the live pipeline reports a fatal fault that
is neither a network nor a media/decode fault, the controller destroys
the pipeline exactly once (`destroyCalls` increases by one and no
instance stays alive), sets `hasError`, and never auto-retries: as long
as no `initHls` run (the handler of the explicit user retry control, or
an effect re-run) occurs, no pipeline instance ever comes alive
again. -/
theorem fatal_fault_teardown (events : List PEvent) (i : Nat) (det : String)
    (h1 : (runP events).refId = some i)
    (h2 : (runP events).alive.contains i = true) :
    (pstep (runP events) (.hlsErr ⟨true, .otherError, det⟩)).player.hasError = true ∧
    (pstep (runP events) (.hlsErr ⟨true, .otherError, det⟩)).alive = [] ∧
    (pstep (runP events) (.hlsErr ⟨true, .otherError, det⟩)).destroyCalls
      = (runP events).destroyCalls + 1 ∧
    (∀ rest : List PEvent, (∀ e ∈ rest, isInitEvent e = false) →
      (rest.foldl pstep
        (pstep (runP events) (.hlsErr ⟨true, .otherError, det⟩))).alive = []) := by
  have hinv := pmInv_runP events
  have ha : (runP events).alive = [i] := by
    rcases hinv with h0 | ⟨j, hj, hrj⟩
    · rw [h0] at h2; simp at h2
    · have hij : i = j := by
        rw [h1] at hrj
        exact Option.some.inj hrj
      subst hij
      exact hj
  have hact : (onHlsError (runP events).player ⟨true, .otherError, det⟩).action
      = .destroy := by
    simp [onHlsError]
  have hmem : i ∈ (runP events).alive := by
    rw [ha]; simp
  have hs' : pstep (runP events) (.hlsErr ⟨true, .otherError, det⟩) =
      { runP events with
        player := (onHlsError (runP events).player ⟨true, .otherError, det⟩).state
        alive := (runP events).alive.erase i
        destroyCalls := (runP events).destroyCalls + 1 } := by
    simp [pstep, pstepErr, h1, hmem, hact]
  refine ⟨?_, ?_, ?_, ?_⟩
  · rw [hs']
    simp [onHlsError, updateState]
  · rw [hs', ha]
    simp
  · rw [hs']
  · intro rest hni
    apply alive_stays_empty _ rest hni
    rw [hs', ha]
    simp

/-- Concrete instance of `fatal_fault_teardown`: attach to an `.m3u8`
source, then receive a fatal non-network, non-media fault. -/
theorem fatal_fault_teardown_witness :
    (pstep (runP [PEvent.init true (some "live/stream.m3u8") true])
      (.hlsErr ⟨true, .otherError, "manifestIncompatibleCodecsError"⟩)).player.hasError
      = true ∧
    (pstep (runP [PEvent.init true (some "live/stream.m3u8") true])
      (.hlsErr ⟨true, .otherError, "manifestIncompatibleCodecsError"⟩)).alive = [] := by
  have h := fatal_fault_teardown [PEvent.init true (some "live/stream.m3u8") true] 0
    "manifestIncompatibleCodecsError" (by decide) (by decide)
  exact ⟨h.1, h.2.1⟩

/-- C2 (amended).  Network fault recovery: on a network fault the
handler acts on (pipeline `fatal` flag set, type `NETWORK_ERROR`), the
controller restarts the load loop (`startLoad`) without tearing down the
pipeline (alive instances and the destroy counter are untouched);
`hasError`, `isPlaying` and `isMuted` are unchanged, while `isLoading`
is set to false — the one user-observable field the handler may change.
Events whose pipeline `fatal` flag is clear are ignored entirely. -/
theorem network_fault_silent_recovery (s : PlayerState) (ms : PMState)
    (t : HlsErrorType) (det det2 : String) :
    (onHlsError s ⟨true, .networkError, det⟩).action = .startLoad ∧
    (onHlsError s ⟨true, .networkError, det⟩).state.hasError = s.hasError ∧
    (onHlsError s ⟨true, .networkError, det⟩).state.isPlaying = s.isPlaying ∧
    (onHlsError s ⟨true, .networkError, det⟩).state.isMuted = s.isMuted ∧
    (onHlsError s ⟨true, .networkError, det⟩).state.isLoading = false ∧
    (pstep ms (.hlsErr ⟨true, .networkError, det⟩)).alive = ms.alive ∧
    (pstep ms (.hlsErr ⟨true, .networkError, det⟩)).destroyCalls = ms.destroyCalls ∧
    onHlsError s ⟨false, t, det2⟩ = ⟨s, .noAction, none⟩ := by
  refine ⟨by simp [onHlsError], by simp [onHlsError, updateState],
    by simp [onHlsError, updateState], by simp [onHlsError, updateState],
    by simp [onHlsError, updateState], ?_, ?_, by simp [onHlsError]⟩
  all_goals
    unfold pstep pstepErr
    match hr : ms.refId with
    | none => rfl
    | some i =>
      by_cases hc : i ∈ ms.alive <;>
        simp [hc, onHlsError]

/-- C2 (counterexample).  The claim as stated fails on the code under
either reading of "non-fatal network fault": a network fault handled by
the `startLoad` branch does change user-observable state (it resets
`isLoading`), and a network fault whose pipeline `fatal` flag is clear
does not restart the load loop at all (the handler returns without
calling `startLoad`). -/
theorem network_fault_observable_cex :
    ((onHlsError ⟨true, true, true, false⟩
        ⟨true, .networkError, "fragLoadError"⟩).state ≠
      (⟨true, true, true, false⟩ : PlayerState)) ∧
    ((onHlsError ⟨true, true, true, false⟩
        ⟨false, .networkError, "fragLoadError"⟩).action ≠ HlsAction.startLoad) := by
  constructor <;> decide

/-- C7.  Manifest parsed / autoplay rejection: the `MANIFEST_PARSED`
handler never tears anything down (alive instances and the destroy
counter are untouched); it reports `isPlaying` when the play attempt
succeeds and `isPlaying = false` when the play promise is rejected, and
in either case leaves `hasError` unchanged and clears `isLoading`. -/
theorem manifest_parsed_autoplay (ms : PMState) (s : PlayerState) (r : Bool) :
    (pstep ms (.manifest r)).alive = ms.alive ∧
    (pstep ms (.manifest r)).destroyCalls = ms.destroyCalls ∧
    (onManifestParsed s false).isPlaying = true ∧
    (onManifestParsed s true).isPlaying = false ∧
    (onManifestParsed s r).hasError = s.hasError ∧
    (onManifestParsed s r).isLoading = false := by
  refine ⟨?_, ?_, by simp [onManifestParsed, updateState],
    by simp [onManifestParsed, updateState], ?_, ?_⟩
  · unfold pstep pstepManifest
    match hr : ms.refId with
    | none => rfl
    | some i => by_cases hc : i ∈ ms.alive <;> simp [hc]
  · unfold pstep pstepManifest
    match hr : ms.refId with
    | none => rfl
    | some i => by_cases hc : i ∈ ms.alive <;> simp [hc]
  · cases r <;> simp [onManifestParsed, updateState]
  · cases r <;> simp [onManifestParsed, updateState]

/-- C9.  `updateState` frame condition: a partial update sets exactly
its present fields and leaves every absent field at its previous
value. -/
theorem updateState_frame (prev : PlayerState) (u : PartialPlayerState) :
    (u.isPlaying = none → (updateState prev u).isPlaying = prev.isPlaying) ∧
    (∀ b, u.isPlaying = some b → (updateState prev u).isPlaying = b) ∧
    (u.isMuted = none → (updateState prev u).isMuted = prev.isMuted) ∧
    (∀ b, u.isMuted = some b → (updateState prev u).isMuted = b) ∧
    (u.isLoading = none → (updateState prev u).isLoading = prev.isLoading) ∧
    (∀ b, u.isLoading = some b → (updateState prev u).isLoading = b) ∧
    (u.hasError = none → (updateState prev u).hasError = prev.hasError) ∧
    (∀ b, u.hasError = some b → (updateState prev u).hasError = b) := by
  refine ⟨fun h => ?_, fun b h => ?_, fun h => ?_, fun b h => ?_,
    fun h => ?_, fun b h => ?_, fun h => ?_, fun b h => ?_⟩ <;>
    simp [updateState, h]

/-- Concrete instance of `updateState_frame`: updating only `isPlaying`
leaves `isMuted` at its previous value. -/
theorem updateState_frame_witness :
    (updateState INITIAL_PLAYER_STATE ⟨some true, none, none, none⟩).isPlaying = true ∧
    (updateState INITIAL_PLAYER_STATE ⟨some true, none, none, none⟩).isMuted =
      INITIAL_PLAYER_STATE.isMuted := by
  have h := updateState_frame INITIAL_PLAYER_STATE ⟨some true, none, none, none⟩
  exact ⟨h.2.1 true rfl, h.2.2.1 rfl⟩

/-! ## Source URL validation and submit flow (rtsp-input.tsx, `RtspInput`) -/

/-- Prefix test, `String.startsWith` modelled on character lists. -/
def strStartsWith (s pre : String) : Bool :=
  List.isPrefixOf pre.data s.data

/-- Scheme constant `RTSP_PROTOCOL_PREFIX` of rtsp-input.tsx. -/
def RTSP_PROTOCOL_PREFIX : String := "rtsp://"

/-- URL check `isValidRtspUrl` of rtsp-input.tsx: the sole validation applied to a
submitted source URL. -/
def isValidRtspUrl (url : String) : Bool :=
  strStartsWith url RTSP_PROTOCOL_PREFIX

/-- Observable state of the `RtspInput` component. -/
structure RtspInputState where
  url : String
  isLoading : Bool
deriving DecidableEq

/-- What a submit does besides updating state. -/
inductive SubmitOutcome
  | noSubmit
  | invalidUrlToast
  | streamAttempt
deriving DecidableEq

/-- The `handleSubmit` handler of `RtspInput` up to the point where `connectStream`
is awaited: an empty URL returns silently, an invalid URL shows an error
toast and returns, and only otherwise does the component enter its
loading state and attempt to start the stream. -/
def handleSubmit (st : RtspInputState) : RtspInputState × SubmitOutcome :=
  if st.url = "" then (st, .noSubmit)
  else if isValidRtspUrl st.url = false then (st, .invalidUrlToast)
  else ({ st with isLoading := true }, .streamAttempt)

/-- Validation according to the specification's words (for comparison
with the code's `isValidRtspUrl`): no characters that could be
interpreted by a command shell — semicolons, pipes, backticks, subshell
syntax.  The backtick is written by code point (96). -/
def specShellSafe (url : String) : Bool :=
  !(url.data.contains ';' || url.data.contains '|' ||
    url.data.contains (Char.ofNat 96) || url.data.contains '$')

/-- C5 (counterexample).  The code validates only the `rtsp://` prefix:
a URL containing a semicolon, a pipe and a subshell dollar — rejected by
the specification's shell-character rule — still triggers a stream-start
attempt. -/
theorem url_validation_shell_cex :
    (handleSubmit ⟨"rtsp://h/cam;a|b$(c)", false⟩).2 = SubmitOutcome.streamAttempt ∧
    specShellSafe "rtsp://h/cam;a|b$(c)" = false := by
  constructor <;> decide

/-- C5 (amended).  A stream start is attempted exactly when the
submitted URL is non-empty and declares the `rtsp://` scheme prefix —
the code applies no length cap and no shell-character filter; for every
malformed (empty or non-`rtsp://`) URL no stream is started and the
component state is unchanged from its prior value. -/
theorem url_validation_prefix_only (st : RtspInputState) :
    ((handleSubmit st).2 = SubmitOutcome.streamAttempt ↔
      st.url ≠ "" ∧ isValidRtspUrl st.url = true) ∧
    ((handleSubmit st).2 ≠ SubmitOutcome.streamAttempt → (handleSubmit st).1 = st) := by
  unfold handleSubmit
  by_cases he : st.url = ""
  · simp [he]
  · by_cases hv : isValidRtspUrl st.url = false
    · simp [he, hv]
    · simp [he, hv]

/-- Concrete instance of `url_validation_prefix_only`: a well-formed
`rtsp://` URL is submitted, a malformed one leaves the state as it
was. -/
theorem url_validation_prefix_only_witness :
    (handleSubmit ⟨"rtsp://localhost:8554/test", false⟩).2
      = SubmitOutcome.streamAttempt ∧
    (handleSubmit ⟨"http://localhost/test.m3u8", true⟩).1
      = ⟨"http://localhost/test.m3u8", true⟩ := by
  refine ⟨(url_validation_prefix_only ⟨"rtsp://localhost:8554/test", false⟩).1.mpr
    ⟨by decide, by decide⟩,
    (url_validation_prefix_only ⟨"http://localhost/test.m3u8", true⟩).2 (by decide)⟩

/-! ## Error-message mapping (lib/errors.ts) -/

/-- Containment test `listInfixOf pat l`: `pat` occurs contiguously in `l` (character-list
model of JavaScript's `String.prototype.includes`). -/
def listInfixOf (pat : List Char) : List Char → Bool
  | [] => pat.isEmpty
  | c :: rest => List.isPrefixOf pat (c :: rest) || listInfixOf pat rest

def strIncludes (s pat : String) : Bool :=
  listInfixOf pat.data s.data

/-- The shape of the backend error payload read by `getReadableMessage`
(`ApiErrorResponse` in errors.ts). -/
structure ApiErrorResponse where
  error : Option String
  message : Option String
  detail : Option String
deriving DecidableEq

/-- The inputs `getReadableMessage` distinguishes: an `AxiosError` (with
optional response payload, optional `code`, and `message`), any other
`Error` (with its `message`), and any non-`Error` value.  `AxiosError`
instances are matched before plain `Error` instances because the code
tests `instanceof AxiosError` first. -/
inductive ErrValue
  | axios (response : Option ApiErrorResponse) (code : Option String) (message : String)
  | jsError (message : String)
  | nonError
deriving DecidableEq

/-- JavaScript truthiness of an optional string: `undefined` and the
empty string are falsy. -/
def jsTruthy : Option String → Option String
  | none => none
  | some v => if v = "" then none else some v

/-- Backend message extraction, `data?.error || data?.message || data?.detail` of errors.ts. -/
def backendMessageOf : Option ApiErrorResponse → Option String
  | none => none
  | some data =>
    match jsTruthy data.error with
    | some v => some v
    | none =>
      match jsTruthy data.message with
      | some v => some v
      | none => jsTruthy data.detail

/-- Known-key table `ERROR_MESSAGES` of errors.ts, in insertion (iteration) order. -/
def ERROR_MESSAGES : List (String × String) :=
  [("Invalid RTSP URL format",
      "The RTSP URL format is invalid. Please use rtsp://..."),
   ("Failed to start stream",
      "Could not start the stream. Please verify the URL is accessible."),
   ("Network Error",
      "Unable to connect to the server. Please check your connection."),
   ("timeout of",
      "The request timed out. Please try again."),
   ("ECONNREFUSED",
      "Server is not responding. Please ensure the backend is running.")]

/-- The `for (const [key, friendly] of Object.entries(ERROR_MESSAGES))`
loop: the friendly message of the first key contained in the backend
message, if any. -/
def findFriendly (backendMessage : String) : Option String :=
  (ERROR_MESSAGES.find? (fun kv => strIncludes backendMessage kv.1)).map
    (fun kv => kv.2)

/-- Core mapping `getReadableMessage` of errors.ts. -/
def getReadableMessage : ErrValue → String
  | .axios response code message =>
    match backendMessageOf response with
    | some bm => (findFriendly bm).getD bm
    | none =>
      if code = some "ECONNABORTED" then
        "The request timed out. The stream may take a while to start."
      else if code = some "ERR_NETWORK" then
        (((ERROR_MESSAGES.find? (fun kv => kv.1 == "Network Error")).map
          (fun kv => kv.2)).getD "")
      else if message = "" then "An unexpected error occurred"
      else message
  | .jsError message => message
  | .nonError => "An unexpected error occurred"

theorem jsTruthy_ne_empty {o : Option String} {v : String}
    (h : jsTruthy o = some v) : v ≠ "" := by
  match o with
  | none => simp [jsTruthy] at h
  | some s =>
    simp only [jsTruthy] at h
    by_cases hs : s = ""
    · simp [hs] at h
    · simp only [if_neg hs] at h
      cases Option.some.inj h
      exact hs

theorem backendMessageOf_ne_empty {resp : Option ApiErrorResponse} {bm : String}
    (h : backendMessageOf resp = some bm) : bm ≠ "" := by
  match resp with
  | none => simp [backendMessageOf] at h
  | some data =>
    simp only [backendMessageOf] at h
    split at h
    · next v hv =>
      cases Option.some.inj h
      exact jsTruthy_ne_empty hv
    · next hv =>
      split at h
      · next v hv2 =>
        cases Option.some.inj h
        exact jsTruthy_ne_empty hv2
      · next hv2 => exact jsTruthy_ne_empty h

theorem findFriendly_ne_empty {bm f : String} (h : findFriendly bm = some f) :
    f ≠ "" := by
  unfold findFriendly at h
  match hf : ERROR_MESSAGES.find? (fun kv => strIncludes bm kv.1) with
  | none => rw [hf] at h; simp at h
  | some kv =>
    rw [hf] at h
    have hsome : some kv.2 = some f := by simpa using h
    cases Option.some.inj hsome
    have hmem := List.mem_of_find?_eq_some hf
    simp only [ERROR_MESSAGES, List.mem_cons, List.not_mem_nil, or_false] at hmem
    rcases hmem with h1 | h1 | h1 | h1 | h1 <;> (rw [h1]; decide)

/-- C10 (counterexample).  `getReadableMessage` can return the empty
string: a plain `Error` whose `message` is empty is returned verbatim,
so the result is not always non-empty. -/
theorem readable_message_empty_cex :
    getReadableMessage (.jsError "") = "" := rfl

/-- C10 (amended).  `getReadableMessage` is total and never throws: any
input that is neither an `AxiosError` nor an `Error` yields exactly
"An unexpected error occurred"; an `Error` input yields its message
verbatim; with a (truthy) backend message the result is deterministically
the friendly message of the first matching known key, or the backend
message itself if no key matches; and the result is non-empty for every
input except a plain `Error` whose message is empty. -/
theorem readable_message_total (v : ErrValue) (m bm : String)
    (resp : Option ApiErrorResponse) (code : Option String) :
    getReadableMessage ErrValue.nonError = "An unexpected error occurred" ∧
    getReadableMessage (.jsError m) = m ∧
    (backendMessageOf resp = some bm →
      getReadableMessage (.axios resp code m) = (findFriendly bm).getD bm) ∧
    (v ≠ .jsError "" → getReadableMessage v ≠ "") := by
  refine ⟨rfl, rfl, ?_, ?_⟩
  · intro h
    simp only [getReadableMessage, h]
  · intro hv
    match v with
    | .nonError => decide
    | .jsError mv =>
      simp only [getReadableMessage]
      intro h
      exact hv (by rw [h])
    | .axios respv codev mv =>
      simp only [getReadableMessage]
      cases hbm : backendMessageOf respv with
      | some bmv =>
        cases hff : findFriendly bmv with
        | some f => simpa [hff] using findFriendly_ne_empty hff
        | none => simpa [hff] using backendMessageOf_ne_empty hbm
      | none =>
        by_cases hc1 : codev = some "ECONNABORTED"
        · simp only [if_pos hc1]
          decide
        · by_cases hc2 : codev = some "ERR_NETWORK"
          · simp only [if_neg hc1, if_pos hc2]
            decide
          · by_cases hm : mv = ""
            · simp only [if_neg hc1, if_neg hc2, if_pos hm]
              decide
            · simp only [if_neg hc1, if_neg hc2, if_neg hm]
              exact hm

/-- Concrete instance of `readable_message_total`: a backend message
containing the known key "Invalid RTSP URL format" is replaced by its
friendly message, and a non-`Error` input maps to the generic
message. -/
theorem readable_message_total_witness :
    getReadableMessage (.axios (some ⟨some "Invalid RTSP URL format: x", none, none⟩)
        none "Request failed") =
      "The RTSP URL format is invalid. Please use rtsp://..." ∧
    getReadableMessage ErrValue.nonError ≠ "" := by
  have h := readable_message_total ErrValue.nonError "Request failed"
    "Invalid RTSP URL format: x"
    (some ⟨some "Invalid RTSP URL format: x", none, none⟩) none
  refine ⟨?_, h.2.2.2 (by decide)⟩
  have h3 := h.2.2.1 (by decide)
  rw [h3]
  decide

/-! ## Stream Lifecycle Manager (server side)

The server-side sources (the subprocess supervisor behind
`/rtsp/connect`, `/rtsp/disconnect`, `/rtsp/status`) are not part of the
`src/` tree; the manager is modelled from the design document
(sections 4.1, 7 and 8). -/

/-- Modelled from the spec: `status ∈ {idle, connecting, live, error}` of
the Stream State Store; the server-side Stream Lifecycle Manager sources
are absent from the repository snapshot. -/
inductive StreamStatus
  | idle
  | connecting
  | live
  | error
deriving DecidableEq

/-- Modelled from the spec: the manager's process-wide state — the
Stream State Store fields plus the tracked ProcessHandle and the set of
alive transcoding subprocesses (by pid), used to instrument the
single-subprocess invariant. -/
structure ManagerState where
  status : StreamStatus
  sourceUrl : Option String
  lastError : Option String
  handle : Option Nat
  aliveProcs : List Nat
  nextPid : Nat
deriving DecidableEq

/-- Modelled from the spec: URL validation of `start` — expected scheme
prefix, length cap (a concrete bound, the spec fixes none), and no
shell-interpretable characters. -/
def mgrValidUrl (url : String) : Bool :=
  isValidRtspUrl url && decide (url.length ≤ 2048) && specShellSafe url

/-- Modelled from the spec: terminate and reap (wait on) the tracked
ProcessHandle, if any, before anything else happens. -/
def terminateAndReap (s : ManagerState) : ManagerState :=
  match s.handle with
  | none => s
  | some pid =>
    { s with
      handle := none
      aliveProcs := s.aliveProcs.erase pid }

/-- Modelled from the spec: `start(sourceUrl)` — validation fault leaves
the state unchanged; otherwise the existing handle is terminated and
reaped strictly before the new subprocess is spawned; on spawn success
the state transitions to `connecting` with `lastError` cleared, on spawn
failure to `error` with `lastError` set. -/
def mgrStart (s : ManagerState) (url : String) (spawnOk : Bool) : ManagerState :=
  if mgrValidUrl url = false then s
  else
    let s1 := terminateAndReap s
    if spawnOk then
      { s1 with
        status := .connecting
        sourceUrl := some url
        lastError := none
        handle := some s1.nextPid
        aliveProcs := s1.nextPid :: s1.aliveProcs
        nextPid := s1.nextPid + 1 }
    else
      { s1 with
        status := .error
        lastError := some "spawn failed" }

/-- Modelled from the spec: `stop()` — with no tracked handle it fails
with `NoActiveStream` (second component true) without altering state;
otherwise it terminates the handle and transitions to `idle` with
`sourceUrl` cleared. -/
def mgrStop (s : ManagerState) : ManagerState × Bool :=
  match s.handle with
  | none => (s, true)
  | some pid =>
    ({ s with
       status := .idle
       sourceUrl := none
       handle := none
       aliveProcs := s.aliveProcs.erase pid }, false)

/-- Modelled from the spec: the readiness signal — `connecting`
transitions to `live` once initial output is observed. -/
def mgrReady (s : ManagerState) : ManagerState :=
  if s.status = .connecting then { s with status := .live } else s

/-- Modelled from the spec: the process-exit watcher — an unexpected
exit of the tracked subprocess transitions the state to `error`. -/
def mgrProcExit (s : ManagerState) : ManagerState :=
  match s.handle with
  | none => s
  | some pid =>
    { s with
      status := .error
      lastError := some "subprocess exited unexpectedly"
      handle := none
      aliveProcs := s.aliveProcs.erase pid }

/-- Lifecycle events driving the manager. -/
inductive MgrEvent
  | start (url : String) (spawnOk : Bool)
  | stop
  | ready
  | procExit

def mgrStep (s : ManagerState) : MgrEvent → ManagerState
  | .start url spawnOk => mgrStart s url spawnOk
  | .stop => (mgrStop s).1
  | .ready => mgrReady s
  | .procExit => mgrProcExit s

/-- Modelled from the spec: stream state is rebuilt from `idle` on every
process restart; no subprocess is alive initially. -/
def initialMgr : ManagerState :=
  ⟨.idle, none, none, none, [], 0⟩

def runMgr (events : List MgrEvent) : ManagerState :=
  events.foldl mgrStep initialMgr

/-- Either no subprocess is alive, or exactly the tracked one. -/
def MgrInv (s : ManagerState) : Prop :=
  s.aliveProcs = [] ∨ ∃ pid, s.aliveProcs = [pid] ∧ s.handle = some pid

theorem mgrInv_terminateAndReap {s : ManagerState} (h : MgrInv s) :
    (terminateAndReap s).aliveProcs = [] := by
  rcases h with h0 | ⟨pid, ha, hh⟩
  · unfold terminateAndReap
    match s.handle with
    | none => exact h0
    | some p => simp [h0]
  · simp [terminateAndReap, hh, ha]

theorem mgrInv_step {s : ManagerState} (h : MgrInv s) (e : MgrEvent) :
    MgrInv (mgrStep s e) := by
  cases e with
  | start url spawnOk =>
    by_cases hv : mgrValidUrl url = false
    · simpa [mgrStep, mgrStart, hv] using h
    · have ht := mgrInv_terminateAndReap h
      simp only [mgrStep, mgrStart, if_neg hv]
      by_cases hs : spawnOk = true
      · simp only [if_pos hs]
        exact Or.inr ⟨(terminateAndReap s).nextPid, by simp [ht], rfl⟩
      · simp only [if_neg hs]
        exact Or.inl ht
  | stop =>
    simp only [mgrStep]
    unfold mgrStop
    match hh : s.handle with
    | none => exact h
    | some pid =>
      rcases h with h0 | ⟨p, ha, hp⟩
      · exact Or.inl (by simp [h0])
      · have hpp : pid = p := by
          rw [hh] at hp
          exact Option.some.inj hp
        subst hpp
        exact Or.inl (by simp [ha])
  | ready =>
    simp only [mgrStep]
    unfold mgrReady
    by_cases hc : s.status = .connecting
    · simp only [if_pos hc]
      rcases h with h0 | ⟨p, ha, hp⟩
      · exact Or.inl h0
      · exact Or.inr ⟨p, ha, hp⟩
    · simpa [if_neg hc] using h
  | procExit =>
    simp only [mgrStep]
    unfold mgrProcExit
    match hh : s.handle with
    | none => exact h
    | some pid =>
      rcases h with h0 | ⟨p, ha, hp⟩
      · exact Or.inl (by simp [h0])
      · have hpp : pid = p := by
          rw [hh] at hp
          exact Option.some.inj hp
        subst hpp
        exact Or.inl (by simp [ha])

theorem mgrInv_run_from {s : ManagerState} (h : MgrInv s)
    (events : List MgrEvent) : MgrInv (events.foldl mgrStep s) := by
  induction events generalizing s with
  | nil => simpa using h
  | cons e rest ih => exact ih (mgrInv_step h e)

theorem mgrInv_runMgr (events : List MgrEvent) : MgrInv (runMgr events) :=
  mgrInv_run_from (Or.inl rfl) events

/-- C8.  Single active subprocess: over every sequence of lifecycle
events, at most one transcoding subprocess is alive at any instant, and
at the point inside `start` just after `terminateAndReap` — before the
new subprocess is spawned — no subprocess is alive at all: the existing
handle is terminated and reaped strictly before the new spawn. -/
theorem single_active_subprocess (events : List MgrEvent) :
    (runMgr events).aliveProcs.length ≤ 1 ∧
    (terminateAndReap (runMgr events)).aliveProcs = [] := by
  have h := mgrInv_runMgr events
  constructor
  · rcases h with h0 | ⟨pid, ha, _⟩
    · simp [h0]
    · simp [ha]
  · exact mgrInv_terminateAndReap h
